import Mathlib

/-!
Shallow embedding of the NAV-extraction pipeline (`src/scripts/main.py` and
`src/scripts/extract_nav.py`) of the `ntx` repository.

Python strings are modelled as `List Char`; Python dictionaries coming from
JSON responses are modelled as structures with `Option` fields (`.get` with a
default becomes `Option.getD`).  Network and filesystem effects are modelled
by an explicit `World` record of functions that the embedded code consults;
exceptions become `Except` values.
-/

namespace NTX

/-- Membership of a character in Python's whitespace set, restricted to the
ASCII whitespace characters (space, tab, newline, carriage return, vertical
tab, form feed).  This is what `str.strip()` removes on the inputs the
pipeline handles. -/
def pyIsSpace (c : Char) : Bool :=
  c = ' ' || c = '\t' || c = '\n' || c = '\r' || c = '\x0b' || c = '\x0c'

/-- Boolean test that `pat` occurs at the very start of `s` (the matching core
of Python's `str.startswith` and of a literal regex fragment). -/
def leadsWith : List Char → List Char → Bool
  | [], _ => true
  | _ :: _, [] => false
  | a :: pt, b :: st => a = b && leadsWith pt st

/-- Python's substring test `needle in hay`. -/
def pyContains (needle : List Char) : List Char → Bool
  | [] => needle.isEmpty
  | b :: st => leadsWith needle (b :: st) || pyContains needle st

/-- Python's `str.strip()`: drop leading and trailing whitespace. -/
def pyStrip (s : List Char) : List Char :=
  (((s.dropWhile pyIsSpace).reverse).dropWhile pyIsSpace).reverse

/-- Python's `str.lower()`, modelled by `Char.toLower` (the keyword set the
code compares against is ASCII; Devanagari has no case). -/
def pyLower (s : List Char) : List Char := s.map Char.toLower

/-- Python's `str.endswith(suffixStr)`. -/
def pyEndsWith (s suffixStr : List Char) : Bool :=
  leadsWith suffixStr.reverse s.reverse

/-- Python's `text.split(sep)` on a one-character separator; keeps empty
parts and maps `"" → [""]`. -/
def pySplitOn (sep : Char) : List Char → List (List Char)
  | [] => [[]]
  | c :: t =>
      if c = sep then [] :: pySplitOn sep t
      else
        match pySplitOn sep t with
        | [] => [[c]]
        | h :: r => (c :: h) :: r

/- ### Regex fragments used by the scraper

The code uses three `re.search` patterns.  Each is a literal-plus-one-capture
pattern in which the captured character class excludes the character that
closes the match, so the regex semantics (leftmost match, greedy capture with
backtracking) collapse to: at the leftmost feasible position, take the maximal
run of class characters and require the closing literal right after it. -/

/-- Leftmost match of the pattern `>([ok]+)</a>` where `ok` is the character
class of the capture (the code uses `[^<]` for names/titles and `[A-Z0-9]`
for symbols).  Returns the captured run.  Both classes exclude `<`, so no
shorter (backtracked) run can be followed by the literal `</a>`: a match at a
position exists iff the maximal run works. -/
def reSearchAnchor (ok : Char → Bool) : List Char → Option (List Char)
  | [] => none
  | c :: t =>
    if c = '>' then
      let run := t.takeWhile ok
      if run.isEmpty = false && leadsWith ("</a>".data) (t.drop run.length) then
        some run
      else reSearchAnchor ok t
    else reSearchAnchor ok t

/-- Leftmost match of `re.search(r'href="([^"]+)"', s)`, returning the
captured URL.  The class `[^"]` excludes the closing quote, so the maximal
run is the only candidate at each position. -/
def hrefCapture : List Char → Option (List Char)
  | [] => none
  | c :: t =>
    if leadsWith ("href=\"".data) (c :: t) then
      let rest := (c :: t).drop 6
      let run := rest.takeWhile (fun ch => ch ≠ '"')
      if run.isEmpty = false && leadsWith ("\"".data) (rest.drop run.length) then
        some run
      else hrefCapture t
    else hrefCapture t

/-- Capture of `re.search(r'>([^<]+)</a>', s)`: anchor text. -/
def anchorTextCapture (s : List Char) : Option (List Char) :=
  reSearchAnchor (fun ch => ch ≠ '<') s

/-- Capture of `re.search(r'>([A-Z0-9]+)</a>', s)`: ticker symbol. -/
def symbolCapture (s : List Char) : Option (List Char) :=
  reSearchAnchor (fun ch => ('A' ≤ ch && ch ≤ 'Z') || ('0' ≤ ch && ch ≤ '9')) s

/- ### Data model -/

/-- One row of `resp.json()["data"]` in the announcement feed; `Option`
fields model `item.get(key, "")` on a dict that may lack the key. -/
structure FeedRow where
  published_date : Option (List Char)
  title : Option (List Char)
deriving DecidableEq

/-- An announcement as assembled by `fetch_fund_announcements`. -/
structure Announcement where
  date : List Char
  title : List Char
  url : List Char
deriving DecidableEq

/-- The row-parsing loop at the end of `fetch_fund_announcements`
(`main.py` lines 116-130): rows whose title HTML yields no `href` capture are
skipped; otherwise date, anchor-text title (default `""`) and URL are kept. -/
def parseAnnouncements (rows : List FeedRow) : List Announcement :=
  rows.filterMap fun item =>
    match hrefCapture (item.title.getD []) with
    | none => none
    | some u =>
        some { date := item.published_date.getD [],
               title := (anchorTextCapture (item.title.getD [])).getD [],
               url := u }

/-- Title test of `find_latest_nav_announcement`: lower-case the title and
look for either disclosure keyword as a substring. -/
def isNavTitle (title : List Char) : Bool :=
  pyContains ("nav".data) (pyLower title) ||
  pyContains ("net assets value".data) (pyLower title)

/-- `find_latest_nav_announcement` (`main.py` lines 133-139): scan the list in
order, return the first announcement whose lowered title contains `"nav"` or
`"net assets value"`, else `None`. -/
def find_latest_nav_announcement (anns : List Announcement) : Option Announcement :=
  anns.find? fun ann => isNavTitle ann.title

/-- Image-candidate test of `extract_image_url` (`main.py` line 156):
`"announcement" in src and src.endswith((".jpg", ".jpeg", ".png"))`. -/
def isAnnouncementImage (src : List Char) : Bool :=
  pyContains ("announcement".data) src &&
  (pyEndsWith src (".jpg".data) || pyEndsWith src (".jpeg".data) ||
   pyEndsWith src (".png".data))

/-- `extract_image_url` (`main.py` lines 142-159), applied to the list of
`src` attributes of the page's `img` elements in document order (the
`soup.find_all("img")` traversal with `img.get("src", "")` defaults): return
the first candidate, else `None`. -/
def extract_image_url (srcs : List (List Char)) : Option (List Char) :=
  srcs.find? isAnnouncementImage

/- ### A first-match characterisation of `List.find?` -/

/-- Helper: `find?` returns `some a` exactly when the list splits as
`l₁ ++ a :: l₂` with `p` failing on all of `l₁` and holding at `a`. -/
theorem find?_first_iff {α : Type} (p : α → Bool) (l : List α) (a : α) :
    l.find? p = some a ↔
      ∃ l₁ l₂, l = l₁ ++ a :: l₂ ∧ p a = true ∧ ∀ x ∈ l₁, p x = false := by
  induction l with
  | nil =>
      constructor
      · intro h; cases h
      · rintro ⟨l₁, l₂, h, -, -⟩
        exact absurd h (by simp)
  | cons b t ih =>
      cases hb : p b with
      | true =>
          simp only [List.find?_cons, hb]
          constructor
          · intro h
            injection h with h
            exact ⟨[], t, by rw [h]; rfl, h ▸ hb, by simp⟩
          · rintro ⟨l₁, l₂, hsplit, hpa, hfail⟩
            cases l₁ with
            | nil =>
                injection hsplit with h1 h2
                rw [h1]
            | cons c t₁ =>
                injection hsplit with h1 h2
                rw [h1, hfail c (List.mem_cons_self c t₁)] at hb
                exact (Bool.false_ne_true hb).elim
      | false =>
          simp only [List.find?_cons, hb]
          constructor
          · intro h
            obtain ⟨l₁, l₂, hsplit, hpa, hfail⟩ := ih.mp h
            refine ⟨b :: l₁, l₂, by rw [hsplit]; rfl, hpa, ?_⟩
            intro x hx
            rcases List.mem_cons.mp hx with hx | hx
            · rw [hx]; exact hb
            · exact hfail x hx
          · rintro ⟨l₁, l₂, hsplit, hpa, hfail⟩
            cases l₁ with
            | nil =>
                injection hsplit with h1 h2
                rw [h1, hpa] at hb
                exact (Bool.false_ne_true hb.symm).elim
            | cons c t₁ =>
                injection hsplit with h1 h2
                exact ih.mpr ⟨t₁, l₂, h2, hpa,
                  fun x hx => hfail x (List.mem_cons_of_mem c hx)⟩

/-- C4: on every announcement list, `find_latest_nav_announcement` returns
exactly the first entry whose title matches the case-insensitive disclosure
keyword test, and returns `none` (an explicit not-found value, no exception)
when no title matches; in that case the per-fund loop records the
`NO_ANNOUNCEMENT` outcome (`processFund`, proved separately in C2's model,
logs `noAnnouncement`). -/
theorem C4_first_nav_announcement (anns : List Announcement) :
    (∀ a, find_latest_nav_announcement anns = some a ↔
       ∃ l₁ l₂, anns = l₁ ++ a :: l₂ ∧ isNavTitle a.title = true ∧
         ∀ x ∈ l₁, isNavTitle x.title = false) ∧
    ((∀ a ∈ anns, isNavTitle a.title = false) →
       find_latest_nav_announcement anns = none) := by
  constructor
  · intro a
    exact find?_first_iff (fun ann => isNavTitle ann.title) anns a
  · intro h
    exact List.find?_eq_none.mpr fun x hx => by
      rw [h x hx]; exact Bool.false_ne_true

/-- Witness for C4 at a concrete list: a title with no keyword yields
`none`. -/
theorem C4_witness :
    find_latest_nav_announcement
      [{ date := "2025-01-01".data, title := "AGM notice".data, url := "u".data }] = none :=
  (C4_first_nav_announcement _).2 (by decide)

/-- C9: on every announcement detail page, `extract_image_url` returns the
first embedded image reference that both signals an announcement-attached
image (path contains `"announcement"`) and carries an accepted extension
(`.jpg`, `.jpeg` or `.png`), and returns `none` — a skip, not an error — when
no such candidate exists. -/
theorem C9_first_image_candidate (srcs : List (List Char)) :
    (∀ s, extract_image_url srcs = some s ↔
       ∃ l₁ l₂, srcs = l₁ ++ s :: l₂ ∧ isAnnouncementImage s = true ∧
         ∀ x ∈ l₁, isAnnouncementImage x = false) ∧
    ((∀ s ∈ srcs, isAnnouncementImage s = false) → extract_image_url srcs = none) := by
  constructor
  · intro s
    exact find?_first_iff isAnnouncementImage srcs s
  · intro h
    exact List.find?_eq_none.mpr fun x hx => by
      rw [h x hx]; exact Bool.false_ne_true

/-- Witness for C9 at a concrete page: a logo PNG outside the announcement
path is rejected, so the result is `none`. -/
theorem C9_witness :
    extract_image_url ["/img/logo.png".data, "/announcement/x.gif".data] = none :=
  (C9_first_image_candidate _).2 (by decide)

/- ### The OCR post-processing of `extract_nav.py` (`parse_data`) -/

/-- The fixed domain keyword list of `parse_data`
(`extract_nav.py` line 60). -/
def ntxKeywords : List (List Char) :=
  ["एनआइबिएल".data, "सहभागिता".data, "मूल्य".data, "मंसिर".data, "२०८२".data, "NAV".data]

/-- The structured result of `parse_data`. -/
structure ParsedData where
  found_keywords : List (List Char)
  raw_lines : List (List Char)
deriving DecidableEq

/-- `parse_data` (`extract_nav.py` lines 52-66): split the recognised text on
newlines, keep the stripped form of every line whose stripped form is
non-empty (Python truthiness of `line.strip()`), and keep every keyword that
occurs as a substring of the whole text. -/
def parse_data (text : List Char) : ParsedData :=
  { found_keywords := ntxKeywords.filter fun kw => pyContains kw text,
    raw_lines :=
      ((pySplitOn '\n' text).filter fun line => !(pyStrip line).isEmpty).map pyStrip }

/- ### Substring, strip and split lemmas -/

/-- Two booleans agreeing as propositions are equal. -/
theorem bool_eq_of_iff {a b : Bool} (h : a = true ↔ b = true) : a = b := by
  cases a <;> cases b <;> simp_all

/-- `leadsWith` is the prefix relation. -/
theorem leadsWith_iff {kw s : List Char} :
    leadsWith kw s = true ↔ ∃ rest, s = kw ++ rest := by
  induction kw generalizing s with
  | nil =>
      simp [leadsWith]
  | cons a kt ih =>
      cases s with
      | nil =>
          simp only [leadsWith]
          constructor
          · intro h; cases h
          · rintro ⟨rest, h⟩; cases h
      | cons b st =>
          show (decide (a = b) && leadsWith kt st) = true ↔ _
          rw [Bool.and_eq_true, decide_eq_true_eq, ih]
          constructor
          · rintro ⟨rfl, rest, rfl⟩; exact ⟨rest, rfl⟩
          · rintro ⟨rest, h⟩
            injection h with h1 h2
            exact ⟨h1.symm, rest, h2⟩

/-- `pyContains` is the substring (infix) relation. -/
theorem pyContains_iff {kw hay : List Char} :
    pyContains kw hay = true ↔ ∃ pre post, hay = pre ++ kw ++ post := by
  induction hay with
  | nil =>
      show kw.isEmpty = true ↔ _
      rw [List.isEmpty_iff]
      constructor
      · rintro rfl; exact ⟨[], [], rfl⟩
      · rintro ⟨pre, post, h⟩
        rcases List.append_eq_nil.mp h.symm with ⟨h1, h2⟩
        exact (List.append_eq_nil.mp h1).2
  | cons b st ih =>
      show (leadsWith kw (b :: st) || pyContains kw st) = true ↔ _
      rw [Bool.or_eq_true, leadsWith_iff, ih]
      constructor
      · rintro (⟨rest, hr⟩ | ⟨pre, post, hp⟩)
        · exact ⟨[], rest, by rw [hr]; rfl⟩
        · exact ⟨b :: pre, post, by rw [hp]; rfl⟩
      · rintro ⟨pre, post, hp⟩
        cases pre with
        | nil => exact Or.inl ⟨post, by simpa using hp⟩
        | cons c pt =>
            injection hp with h1 h2
            exact Or.inr ⟨pt, post, h2⟩

/-- Occurrence in a string containing one separator character that the needle
avoids splits into occurrence on either side. -/
theorem pyContains_append_sep {kw : List Char} {sep : Char}
    (hne : kw ≠ []) (hsep : ∀ c ∈ kw, c ≠ sep) (a b : List Char) :
    pyContains kw (a ++ sep :: b) = (pyContains kw a || pyContains kw b) := by
  apply bool_eq_of_iff
  rw [Bool.or_eq_true, pyContains_iff, pyContains_iff, pyContains_iff]
  constructor
  · rintro ⟨pre, post, hp⟩
    rw [List.append_assoc] at hp
    rcases List.append_eq_append_iff.mp hp with ⟨m, hc, hb⟩ | ⟨m, hc, hd⟩
    · cases m with
      | nil =>
          simp only [List.nil_append] at hb
          cases kw with
          | nil => exact absurd rfl hne
          | cons k kt =>
              injection hb with h1 h2
              exact absurd h1.symm (hsep k (List.mem_cons_self k kt))
      | cons x m' =>
          injection hb with h1 h2
          exact Or.inr ⟨m', post, by rw [h2]; simp [List.append_assoc]⟩
    · rcases List.append_eq_append_iff.mp hd with ⟨m2, hc2, hp2⟩ | ⟨m2, hc2, hp2⟩
      · exact Or.inl ⟨pre, m2, by rw [hc, hc2]; simp [List.append_assoc]⟩
      · cases m2 with
        | nil =>
            simp only [List.append_nil] at hc2
            exact Or.inl ⟨pre, [], by rw [hc, hc2]; simp⟩
        | cons y m2' =>
            injection hp2 with h1 h2
            exact absurd h1.symm
              (hsep y (by rw [hc2]; exact List.mem_append_right _ (List.mem_cons_self y m2')))
  · rintro (⟨pre, post, hp⟩ | ⟨pre, post, hp⟩)
    · exact ⟨pre, post ++ sep :: b, by rw [hp]; simp [List.append_assoc]⟩
    · exact ⟨a ++ sep :: pre, post, by rw [hp]; simp [List.append_assoc]⟩

/-- Evaluation of `pyContains` on the empty haystack. -/
theorem pyContains_nil (kw : List Char) : pyContains kw [] = kw.isEmpty := rfl

/-- A non-empty needle forces a non-empty haystack. -/
theorem ne_nil_of_pyContains {kw hay : List Char} (hne : kw ≠ [])
    (h : pyContains kw hay = true) : hay ≠ [] := by
  intro hnil
  rw [hnil, pyContains_nil] at h
  exact hne (List.isEmpty_iff.mp h)

/-- `joinSep sep` is the inverse of splitting on `sep` (Python's
`sep.join`). -/
def joinSep (sep : Char) : List (List Char) → List Char
  | [] => []
  | [p] => p
  | p :: q :: r => p ++ sep :: joinSep sep (q :: r)

/-- Splitting never produces the empty part list. -/
theorem pySplitOn_ne_nil (sep : Char) (s : List Char) : pySplitOn sep s ≠ [] := by
  cases s with
  | nil => simp [pySplitOn]
  | cons c t =>
      rw [pySplitOn]
      by_cases hc : c = sep
      · rw [if_pos hc]; simp
      · rw [if_neg hc]
        cases pySplitOn sep t <;> simp

/-- Joining the split parts with the separator recovers the input. -/
theorem joinSep_pySplitOn (sep : Char) (s : List Char) :
    joinSep sep (pySplitOn sep s) = s := by
  induction s with
  | nil => rfl
  | cons c t ih =>
      obtain ⟨q, r, hqr⟩ := List.exists_cons_of_ne_nil (pySplitOn_ne_nil sep t)
      rw [hqr] at ih
      rw [pySplitOn]
      by_cases hc : c = sep
      · rw [if_pos hc, hqr]
        show sep :: joinSep sep (q :: r) = c :: t
        rw [hc, ih]
      · rw [if_neg hc, hqr]
        cases r with
        | nil =>
            show c :: q = c :: t
            have : q = t := ih
            rw [this]
        | cons q2 r2 =>
            show (c :: q) ++ sep :: joinSep sep (q2 :: r2) = c :: t
            have : q ++ sep :: joinSep sep (q2 :: r2) = t := ih
            rw [List.cons_append, this]

/-- A needle avoiding the separator occurs in the join of parts exactly when
it occurs in one of the parts. -/
theorem pyContains_joinSep {kw : List Char} {sep : Char} (hne : kw ≠ [])
    (hsep : ∀ c ∈ kw, c ≠ sep) (ps : List (List Char)) :
    pyContains kw (joinSep sep ps) = true ↔ ∃ p ∈ ps, pyContains kw p = true := by
  induction ps with
  | nil =>
      rw [show joinSep sep [] = [] from rfl, pyContains_nil]
      simp [hne]
  | cons p ps ih =>
      cases ps with
      | nil =>
          rw [show joinSep sep [p] = p from rfl]
          simp
      | cons q r =>
          rw [show joinSep sep (p :: q :: r) = p ++ sep :: joinSep sep (q :: r) from rfl,
              pyContains_append_sep hne hsep, Bool.or_eq_true, ih]
          constructor
          · rintro (h | ⟨x, hx, hc⟩)
            · exact ⟨p, List.mem_cons_self p _, h⟩
            · exact ⟨x, List.mem_cons_of_mem p hx, hc⟩
          · rintro ⟨x, hx, hc⟩
            rcases List.mem_cons.mp hx with rfl | hx
            · exact Or.inl hc
            · exact Or.inr ⟨x, hx, hc⟩

/-- A needle avoiding the separator occurs in the text exactly when it occurs
in one of the split parts. -/
theorem pyContains_pySplitOn {kw : List Char} {sep : Char} (hne : kw ≠ [])
    (hsep : ∀ c ∈ kw, c ≠ sep) (text : List Char) :
    pyContains kw text = true ↔ ∃ p ∈ pySplitOn sep text, pyContains kw p = true := by
  conv_lhs => rw [← joinSep_pySplitOn sep text]
  exact pyContains_joinSep hne hsep _

/-- `dropWhile` removes an initial run of elements satisfying `p`. -/
theorem dropWhile_decomp (p : Char → Bool) (l : List Char) :
    ∃ d, l = d ++ l.dropWhile p ∧ ∀ c ∈ d, p c = true := by
  induction l with
  | nil => exact ⟨[], rfl, by simp⟩
  | cons c t ih =>
      cases hc : p c with
      | true =>
          obtain ⟨d, hd, hall⟩ := ih
          refine ⟨c :: d, ?_, ?_⟩
          · rw [List.dropWhile_cons, if_pos hc, List.cons_append]
            exact congrArg (c :: ·) hd
          · intro x hx
            rcases List.mem_cons.mp hx with rfl | hx
            · exact hc
            · exact hall x hx
      | false =>
          refine ⟨[], ?_, by simp⟩
          rw [List.dropWhile_cons, if_neg (by rw [hc]; exact Bool.false_ne_true), List.nil_append]

/-- The head surviving `dropWhile` fails the predicate. -/
theorem dropWhile_head_false {p : Char → Bool} {l : List Char} {c : Char} {t : List Char}
    (h : l.dropWhile p = c :: t) : p c = false := by
  induction l with
  | nil => cases h
  | cons b bt ih =>
      rw [List.dropWhile_cons] at h
      by_cases hb : p b = true
      · rw [if_pos hb] at h
        exact ih h
      · rw [if_neg hb] at h
        injection h with h1 h2
        rw [← h1]
        exact Bool.not_eq_true _ ▸ Bool.eq_false_iff.mpr hb

/-- Once the head fails the predicate, `dropWhile` is the identity. -/
theorem dropWhile_eq_self_of_head {p : Char → Bool} {l : List Char}
    (h : ∀ c t, l = c :: t → p c = false) : l.dropWhile p = l := by
  cases l with
  | nil => rfl
  | cons c t =>
      rw [List.dropWhile_cons, if_neg (by rw [h c t rfl]; exact Bool.false_ne_true)]

/-- Unfolding of `pyStrip`. -/
theorem pyStrip_eq (s : List Char) :
    pyStrip s = ((s.dropWhile pyIsSpace).reverse.dropWhile pyIsSpace).reverse := rfl

/-- A string is its stripped core surrounded by two all-whitespace runs. -/
theorem pyStrip_decomp (s : List Char) :
    ∃ d₁ d₂, s = d₁ ++ pyStrip s ++ d₂ ∧ (∀ c ∈ d₁, pyIsSpace c = true) ∧
      ∀ c ∈ d₂, pyIsSpace c = true := by
  obtain ⟨d₁, hd₁, h₁⟩ := dropWhile_decomp pyIsSpace s
  obtain ⟨d₂, hd₂, h₂⟩ := dropWhile_decomp pyIsSpace (s.dropWhile pyIsSpace).reverse
  refine ⟨d₁, d₂.reverse, ?_, h₁, fun c hc => h₂ c (List.mem_reverse.mp hc)⟩
  have hm : s.dropWhile pyIsSpace = pyStrip s ++ d₂.reverse := by
    have h3 := congrArg List.reverse hd₂
    rw [List.reverse_reverse, List.reverse_append] at h3
    rw [pyStrip_eq]
    exact h3
  rw [List.append_assoc, ← hm]
  exact hd₁

/-- Stripping is idempotent. -/
theorem pyStrip_idem (s : List Char) : pyStrip (pyStrip s) = pyStrip s := by
  rcases hr : pyStrip s with _ | ⟨c, t⟩
  · rfl
  · have hdw : (s.dropWhile pyIsSpace).reverse.dropWhile pyIsSpace = t.reverse ++ [c] := by
      have := congrArg List.reverse (pyStrip_eq s ▸ hr)
      rw [List.reverse_reverse] at this
      rw [this, List.reverse_cons]
    obtain ⟨d₂, hd₂, h₂⟩ := dropWhile_decomp pyIsSpace (s.dropWhile pyIsSpace).reverse
    have hmid : s.dropWhile pyIsSpace = c :: (t ++ d₂.reverse) := by
      have h3 := congrArg List.reverse hd₂
      rw [List.reverse_reverse, List.reverse_append] at h3
      rw [hdw] at h3
      simpa using h3
    have hc : pyIsSpace c = false := dropWhile_head_false hmid
    have h1 : (c :: t).dropWhile pyIsSpace = c :: t :=
      dropWhile_eq_self_of_head (fun x u hx => by injection hx with hx1 hx2; rw [← hx1]; exact hc)
    have h2 : (c :: t).reverse.dropWhile pyIsSpace = (c :: t).reverse := by
      apply dropWhile_eq_self_of_head
      intro x u hx
      rw [List.reverse_cons, ← hdw] at hx
      exact dropWhile_head_false hx
    rw [pyStrip_eq, h1, h2, List.reverse_reverse]

/-- Standalone leading-run lemma: a whitespace-free needle ignores an
all-whitespace run in front. -/
theorem pyContains_space_left {kw : List Char} (hne : kw ≠ [])
    (hsf : ∀ c ∈ kw, pyIsSpace c = false) {d : List Char}
    (hd : ∀ c ∈ d, pyIsSpace c = true) (s : List Char) :
    pyContains kw (d ++ s) = pyContains kw s := by
  induction d with
  | nil => rfl
  | cons c dt ih =>
      have hc : pyIsSpace c = true := hd c (List.mem_cons_self c dt)
      have hlw : leadsWith kw (c :: (dt ++ s)) = false := by
        cases kw with
        | nil => exact absurd rfl hne
        | cons k kt =>
            have hk : pyIsSpace k = false := hsf k (List.mem_cons_self k kt)
            have hkc : k ≠ c := fun h => by rw [h, hc] at hk; cases hk
            show (decide (k = c) && leadsWith kt (dt ++ s)) = false
            simp [hkc]
      show (leadsWith kw (c :: (dt ++ s)) || pyContains kw (dt ++ s)) = pyContains kw s
      rw [hlw, Bool.false_or]
      exact ih fun x hx => hd x (List.mem_cons_of_mem c hx)

/-- Substring occurrence is preserved by reversing both strings. -/
theorem pyContains_reverse (kw hay : List Char) :
    pyContains kw.reverse hay.reverse = pyContains kw hay := by
  apply bool_eq_of_iff
  rw [pyContains_iff, pyContains_iff]
  constructor
  · rintro ⟨pre, post, hp⟩
    refine ⟨post.reverse, pre.reverse, ?_⟩
    have := congrArg List.reverse hp
    rw [List.reverse_reverse] at this
    rw [this]
    simp [List.reverse_append, List.append_assoc]
  · rintro ⟨pre, post, hp⟩
    refine ⟨post.reverse, pre.reverse, ?_⟩
    rw [hp]
    simp [List.reverse_append, List.append_assoc]

/-- Trailing-run counterpart of `pyContains_space_left`. -/
theorem pyContains_space_right {kw : List Char} (hne : kw ≠ [])
    (hsf : ∀ c ∈ kw, pyIsSpace c = false) {d : List Char}
    (hd : ∀ c ∈ d, pyIsSpace c = true) (s : List Char) :
    pyContains kw (s ++ d) = pyContains kw s := by
  rw [← pyContains_reverse kw (s ++ d), List.reverse_append, ← pyContains_reverse kw s]
  exact @pyContains_space_left kw.reverse
    (fun h => hne (by simpa using congrArg List.reverse h))
    (fun c hc => hsf c (List.mem_reverse.mp hc))
    d.reverse
    (fun c hc => hd c (List.mem_reverse.mp hc)) s.reverse

/-- A whitespace-free needle occurs in a string exactly when it occurs in the
stripped string. -/
theorem pyContains_pyStrip {kw : List Char} (hne : kw ≠ [])
    (hsf : ∀ c ∈ kw, pyIsSpace c = false) (s : List Char) :
    pyContains kw (pyStrip s) = pyContains kw s := by
  obtain ⟨d₁, d₂, hs, h₁, h₂⟩ := pyStrip_decomp s
  conv_rhs => rw [hs]
  rw [List.append_assoc, pyContains_space_left hne hsf h₁,
      pyContains_space_right hne hsf h₂]

/-- Filtering after mapping is mapping after filtering the composition. -/
theorem map_filter_swap {α β : Type} (f : α → β) (p : β → Bool) (l : List α) :
    (l.filter fun x => p (f x)).map f = (l.map f).filter p := by
  induction l with
  | nil => rfl
  | cons a t ih => by_cases hp : p (f a) <;> simp [List.filter_cons, hp, ih]

/-- C5: `parse_data` trims each line of the recognised text and drops the
empty ones while preserving the order of the remaining lines (its `raw_lines`
equal the split lines, each stripped, with the empty results removed; every
kept line is non-empty and already stripped), and its `found_keywords` are
exactly the members of the fixed domain keyword list occurring somewhere in
the kept lines (equivalently, in the joined text); a text containing no
keyword yields empty `found_keywords` while the lines are still emitted. -/
theorem C5_keyword_and_line_extraction (text : List Char) :
    (parse_data text).raw_lines =
        ((pySplitOn '\n' text).map pyStrip).filter (fun l => !l.isEmpty)
    ∧ (∀ l ∈ (parse_data text).raw_lines, l ≠ [] ∧ pyStrip l = l)
    ∧ (parse_data text).found_keywords =
        ntxKeywords.filter (fun kw => (parse_data text).raw_lines.any fun l => pyContains kw l)
    ∧ ((∀ kw ∈ ntxKeywords, pyContains kw text = false) →
        (parse_data text).found_keywords = []) := by
  have hkw : ∀ kw ∈ ntxKeywords, kw ≠ [] ∧ ∀ c ∈ kw, pyIsSpace c = false := by decide
  refine ⟨?_, ?_, ?_, ?_⟩
  · exact map_filter_swap pyStrip (fun l => !l.isEmpty) _
  · intro l hl
    simp only [parse_data, List.mem_map, List.mem_filter] at hl
    obtain ⟨line, ⟨-, hne⟩, rfl⟩ := hl
    rw [Bool.not_eq_eq_eq_not, Bool.not_true, List.isEmpty_eq_false] at hne
    exact ⟨hne, pyStrip_idem line⟩
  · apply List.filter_congr
    intro kw hkwm
    obtain ⟨hne, hsf⟩ := hkw kw hkwm
    have hsep : ∀ c ∈ kw, c ≠ '\n' := by
      intro c hc hcn
      rw [hcn] at hc
      have := hsf _ hc
      exact absurd this (by decide)
    apply bool_eq_of_iff
    rw [List.any_eq_true, pyContains_pySplitOn hne hsep text]
    constructor
    · rintro ⟨p, hp, hc⟩
      have hc2 : pyContains kw (pyStrip p) = true := by
        rw [pyContains_pyStrip hne hsf]; exact hc
      have hnn : pyStrip p ≠ [] := ne_nil_of_pyContains hne hc2
      refine ⟨pyStrip p, ?_, hc2⟩
      simp only [parse_data, List.mem_map, List.mem_filter]
      exact ⟨p, ⟨hp, by simp [hnn]⟩, rfl⟩
    · rintro ⟨l, hl, hc⟩
      simp only [parse_data, List.mem_map, List.mem_filter] at hl
      obtain ⟨p, ⟨hp, -⟩, rfl⟩ := hl
      rw [pyContains_pyStrip hne hsf] at hc
      exact ⟨p, hp, hc⟩
  · intro h
    exact List.filter_eq_nil_iff.mpr fun kw hm => by
      rw [h kw hm]; exact Bool.false_ne_true

/-- Witness for C5 at a concrete keyword-free text: both lines survive in
order, stripped, and no keyword is reported. -/
theorem C5_witness :
    (parse_data ("  spam \n\n eggs ".data)).found_keywords = [] ∧
    (parse_data ("  spam \n\n eggs ".data)).raw_lines = ["spam".data, "eggs".data] :=
  ⟨(C5_keyword_and_line_extraction _).2.2.2 (by decide), by decide⟩

/- ### Error taxonomy and network model -/

/-- Error taxonomy of the spec.  The scraping code of `main.py` only ever
raises transport errors (`raise_for_status`, connection failures) and generic
exceptions; `scrapeError` and `formatError` appear in the type so that their
absence from the code's behaviour is expressible. -/
inductive PyErr where
  | transport (status : Nat)
  | scrapeError (what : List Char)
  | formatError (what : List Char)
  | engineUnavailable
  | fileNotFound (src : List Char)
  | other (msg : List Char)
deriving DecidableEq

/-- What `fetch_fund_announcements` scrapes from the fund profile page
(`main.py` lines 79-90): the `_token` meta element's content and the text of
the elements with ids `companyid`, `symbol` and `sector`; each is `none` when
the element is absent from the markup. -/
structure ProfilePage where
  metaToken : Option (List Char)
  companyidText : Option (List Char)
  symbolText : Option (List Char)
  sectorText : Option (List Char)
deriving DecidableEq

/-- The varying fields of the form-encoded body posted to the announcement
feed (`main.py` lines 103-110); `draw`, `start` and `length` are the
constants `"1"`, `"0"`, `"10"`.  The scraped token travels in the
`X-CSRF-Token` header. -/
structure AjaxData where
  company : List Char
  symbol : List Char
  sector : List Char
  csrf : List Char
deriving DecidableEq

/-- External effects used by `fetch_fund_announcements`: the session `GET` of
the profile page (which has no `raise_for_status`, so only connection
failures raise) and the feed `POST` (followed by `raise_for_status`, so HTTP
errors raise too). -/
structure AnnNet where
  profile : List Char → Except PyErr ProfilePage
  feed : AjaxData → Except PyErr (List FeedRow)

/-- `fetch_fund_announcements` (`main.py` lines 65-130): fetch the profile
page for the lower-cased symbol, read the token and hidden fields with
empty-string defaults (the requested symbol for the symbol field), post the
feed query and parse its rows.  Missing markup fields raise nothing. -/
def fetch_fund_announcements (net : AnnNet) (symbol : List Char) :
    Except PyErr (List Announcement) :=
  match net.profile (pyLower symbol) with
  | .error e => .error e
  | .ok page =>
      let csrf_token := page.metaToken.getD []
      let company_id := page.companyidText.getD []
      let symbol_val := page.symbolText.getD symbol
      let sector_val := page.sectorText.getD []
      match net.feed
          { company := company_id, symbol := symbol_val,
            sector := sector_val, csrf := csrf_token } with
      | .error e => .error e
      | .ok rows => .ok (parseAnnouncements rows)

/-- One row of the fund-directory JSON; `Option` fields model `item.get` on a
dict that may lack the key. -/
structure DirRow where
  symbol : Option (List Char)
  companyname : Option (List Char)
  fund_size : Option (List Char)
  daily_nav_price : Option (List Char)
  daily_date : Option (List Char)
  weekly_nav_price : Option (List Char)
  weekly_date : Option (List Char)
  monthly_nav_price : Option (List Char)
  monthly_date : Option (List Char)
deriving DecidableEq

/-- The parsed directory response body: `dataField = none` models a JSON
object with no top-level `"data"` key. -/
structure DirResponse where
  dataField : Option (List DirRow)
deriving DecidableEq

/-- A fund record as assembled by `fetch_open_end_funds`. -/
structure FundRec where
  symbol : List Char
  name : List Char
  fund_size : List Char
  daily_nav : List Char
  daily_date : List Char
  weekly_nav : List Char
  weekly_date : List Char
  monthly_nav : List Char
  monthly_date : List Char
deriving DecidableEq

/-- Row conversion of `fetch_open_end_funds` (`main.py` lines 41-60): symbol
and name are regex captures out of HTML anchors, falling back to the raw
field text when the regex finds no match. -/
def parseFundRow (item : DirRow) : FundRec :=
  let symRaw := item.symbol.getD []
  let nameRaw := item.companyname.getD []
  { symbol := (symbolCapture symRaw).getD symRaw,
    name := (anchorTextCapture nameRaw).getD nameRaw,
    fund_size := item.fund_size.getD [],
    daily_nav := item.daily_nav_price.getD [],
    daily_date := item.daily_date.getD [],
    weekly_nav := item.weekly_nav_price.getD [],
    weekly_date := item.weekly_date.getD [],
    monthly_nav := item.monthly_nav_price.getD [],
    monthly_date := item.monthly_date.getD [] }

/-- The directory `GET` with its fixed parameters (`draw=1 start=0 length=50
type=2`) followed by `raise_for_status`, delivering the decoded JSON body on
success. -/
structure DirNet where
  directory : Except PyErr DirResponse

/-- `fetch_open_end_funds` (`main.py` lines 20-62): propagate transport
errors; otherwise map the rows of `data.get("data", [])` — a missing
top-level `"data"` key silently becomes the empty list. -/
def fetch_open_end_funds (net : DirNet) : Except PyErr (List FundRec) :=
  match net.directory with
  | .error e => .error e
  | .ok resp => .ok ((resp.dataField.getD []).map parseFundRow)

/- ### Image download (`download_image`) -/

/-- The artifact store: a map from paths to file contents. -/
def FS : Type := List Char → Option (List Nat)

/-- Overwriting write of `Path.write_bytes`. -/
def fsWrite (fs : FS) (path : List Char) (bytes : List Nat) : FS :=
  fun q => if q = path then some bytes else fs q

/-- `pathlib.Path(s).name` for URL-shaped strings: the last nonempty
slash-separated component. -/
def pyName (s : List Char) : List Char :=
  ((pySplitOn '/' s).filter fun p => !p.isEmpty).getLastD []

/-- `pathlib.Path(s).suffix`: the part of the final component from its last
dot, provided that dot is neither the first nor the last character. -/
def pySuffix (s : List Char) : List Char :=
  let nm := pyName s
  match (nm.enum.filter fun q => q.2 = '.').getLast? with
  | none => []
  | some iv => if 0 < iv.1 ∧ iv.1 < nm.length - 1 then nm.drop iv.1 else []

/-- The artifact path of `download_image` (`main.py` lines 174-175):
`IMAGES_DIR / f"{symbol}{ext}"` with `ext = Path(url).suffix or ".jpg"`. -/
def imagePath (url symbol : List Char) : List Char :=
  "images/".data ++ symbol ++
    (if (pySuffix url).isEmpty then ".jpg".data else pySuffix url)

/-- External effects of the image-processing loop: the announcement detail
page reduced to its `img` `src` list (`GET` + `raise_for_status` + parse),
and the raw image `GET` + `raise_for_status`. -/
structure ImgNet where
  page : List Char → Except PyErr (List (List Char))
  http : List Char → Except PyErr (List Nat)

/-- `download_image` (`main.py` lines 162-178): fetch the bytes (HTTP errors
raise), then overwrite the symbol-keyed artifact.  The `mkdir(exist_ok=True)`
directory side effect is not modelled. -/
def download_image (net : ImgNet) (url symbol : List Char) (fs : FS) :
    Except PyErr (FS × List Char) :=
  match net.http url with
  | .error e => .error e
  | .ok bytes => .ok (fsWrite fs (imagePath url symbol) bytes, imagePath url symbol)

/- ### The per-fund loops of `main` -/

/-- Entry of the `nav_images` list built in step 2 of `main`. -/
structure NavImage where
  symbol : List Char
  name : List Char
  announcement : Announcement
deriving DecidableEq

/-- Entry of the `downloaded` list built in step 3 of `main`. -/
structure Downloaded where
  symbol : List Char
  name : List Char
  image_path : List Char
  image_url : List Char
  announcement_url : List Char
deriving DecidableEq

/-- What the loops print for a fund, always prefixed with the fund's
symbol. -/
inductive LogLine where
  | found (symbol date : List Char)
  | noAnnouncement (symbol : List Char)
  | fundError (symbol : List Char) (e : PyErr)
  | savedImage (symbol path : List Char)
  | noImage (symbol : List Char)
deriving DecidableEq

/-- Body of the step-2 loop of `main` (`main.py` lines 230-251): the `try`
block fetches the announcements and picks the first NAV one; any raised
error is caught at this per-fund boundary and logged with the symbol. -/
def processFund (fetchAnns : FundRec → Except PyErr (List Announcement))
    (fund : FundRec) : List NavImage × LogLine :=
  match fetchAnns fund with
  | .error e => ([], .fundError fund.symbol e)
  | .ok anns =>
      match find_latest_nav_announcement anns with
      | some nav =>
          ([{ symbol := fund.symbol, name := fund.name, announcement := nav }],
           .found fund.symbol nav.date)
      | none => ([], .noAnnouncement fund.symbol)

/-- The step-2 loop over all funds, accumulating `nav_images` and log
output. -/
def mainStep2 (fetchAnns : FundRec → Except PyErr (List Announcement)) :
    List FundRec → List NavImage × List LogLine
  | [] => ([], [])
  | f :: rest =>
      let r := processFund fetchAnns f
      let r2 := mainStep2 fetchAnns rest
      (r.1 ++ r2.1, r.2 :: r2.2)

/-- Body of the step-3 loop of `main` (`main.py` lines 257-279): locate the
image on the announcement page, download it; raised errors are caught at the
per-item boundary and logged with the symbol. -/
def processItem (net : ImgNet) (fs : FS) (item : NavImage) :
    FS × List Downloaded × LogLine :=
  match net.page item.announcement.url with
  | .error e => (fs, [], .fundError item.symbol e)
  | .ok srcs =>
      match extract_image_url srcs with
      | none => (fs, [], .noImage item.symbol)
      | some imgUrl =>
          match download_image net imgUrl item.symbol fs with
          | .error e => (fs, [], .fundError item.symbol e)
          | .ok r =>
              (r.1, [{ symbol := item.symbol, name := item.name,
                       image_path := r.2, image_url := imgUrl,
                       announcement_url := item.announcement.url }],
               .savedImage item.symbol r.2)

/-- The step-3 loop over the located items, threading the artifact store. -/
def mainStep3 (net : ImgNet) (fs : FS) : List NavImage → FS × List Downloaded × List LogLine
  | [] => (fs, [], [])
  | item :: rest =>
      let r := processItem net fs item
      let r2 := mainStep3 net r.1 rest
      (r2.1, r.2.1 ++ r2.2.1, r.2.2 :: r2.2.2)

/- ### C1: missing token / hidden fields do not raise -/

/-- Concrete profile page with every scrapable field absent. -/
def bareProfilePage : ProfilePage :=
  { metaToken := none, companyidText := none, symbolText := none, sectorText := none }

/-- Concrete feed row carrying a link. -/
def sampleFeedRow : FeedRow :=
  { published_date := some ("2025-01-01".data),
    title := some ("<a href=\"https://example.com/a1\">NAV Report</a>".data) }

/-- Concrete network on which every profile field is missing yet the feed
answers. -/
def bareFieldNet : AnnNet :=
  { profile := fun _ => .ok bareProfilePage,
    feed := fun _ => .ok [sampleFeedRow] }

/-- C1 counterexample: on a profile page from which neither the anti-forgery
token nor any hidden company-id/symbol/sector field can be scraped,
`fetch_fund_announcements` does not fail with a `ScrapeError` (nor with any
error): it returns the parsed announcement list. -/
theorem C1_counterexample :
    fetch_fund_announcements bareFieldNet ("XYZ".data) =
      .ok [{ date := "2025-01-01".data, title := "NAV Report".data,
             url := "https://example.com/a1".data }]
    ∧ bareProfilePage.metaToken = none ∧ bareProfilePage.companyidText = none
    ∧ bareProfilePage.symbolText = none ∧ bareProfilePage.sectorText = none := by
  refine ⟨?_, rfl, rfl, rfl, rfl⟩
  rfl

/-- C1 (amended): when the profile page is retrieved but the token and all
hidden fields are missing, `fetch_fund_announcements` raises no `ScrapeError`:
it substitutes empty strings (the requested symbol for the symbol field),
issues the feed query with those defaults, and returns the parsed rows when
the feed succeeds. -/
theorem C1_amended_missing_fields_proceed (net : AnnNet) (symbol : List Char)
    (page : ProfilePage) (rows : List FeedRow)
    (hp : net.profile (pyLower symbol) = .ok page)
    (hmiss : page.metaToken = none ∧ page.companyidText = none ∧
      page.symbolText = none ∧ page.sectorText = none)
    (hf : net.feed { company := [], symbol := symbol, sector := [], csrf := [] } = .ok rows) :
    fetch_fund_announcements net symbol = .ok (parseAnnouncements rows) := by
  obtain ⟨h1, h2, h3, h4⟩ := hmiss
  unfold fetch_fund_announcements
  rw [hp]
  simp only [h1, h2, h3, h4, Option.getD_none]
  rw [hf]

/-- Witness for C1's amended theorem on the concrete all-missing page. -/
theorem C1_witness :
    fetch_fund_announcements bareFieldNet ("NIBLF".data) =
      .ok (parseAnnouncements [sampleFeedRow]) :=
  C1_amended_missing_fields_proceed bareFieldNet ("NIBLF".data) bareProfilePage
    [sampleFeedRow] rfl ⟨rfl, rfl, rfl, rfl⟩ rfl

/- ### C3: missing top-level field yields [] silently -/

/-- Concrete directory network whose JSON body lacks the `"data"` key. -/
def dirNetMissingData : DirNet := { directory := .ok { dataField := none } }

/-- C3 counterexample: a directory response without the expected top-level
field does not produce a `FormatError`; `fetch_open_end_funds` silently
returns the empty fund list. -/
theorem C3_counterexample :
    fetch_open_end_funds dirNetMissingData = .ok []
    ∧ ∀ e, fetch_open_end_funds dirNetMissingData ≠ .error e := by
  refine ⟨rfl, fun e h => ?_⟩
  cases h

/-- C3 (amended): `fetch_open_end_funds` propagates transport errors from the
directory request, but a response whose top-level `"data"` field is missing
is not a `FormatError`: the function silently returns the empty fund list. -/
theorem C3_amended_missing_field_empty (net : DirNet) :
    (∀ e, net.directory = .error e → fetch_open_end_funds net = .error e)
    ∧ ∀ resp, net.directory = .ok resp → resp.dataField = none →
        fetch_open_end_funds net = .ok [] := by
  constructor
  · intro e he
    unfold fetch_open_end_funds
    rw [he]
  · intro resp hr hd
    unfold fetch_open_end_funds
    rw [hr]
    show Except.ok ((resp.dataField.getD []).map parseFundRow) = Except.ok []
    rw [hd]
    rfl

/-- Witness for C3's amended theorem on the concrete data-less response. -/
theorem C3_witness :
    fetch_open_end_funds dirNetMissingData = .ok [] :=
  (C3_amended_missing_field_empty dirNetMissingData).2 { dataField := none } rfl rfl

/- ### C10: rows without an href are silently omitted -/

/-- Unfolding of `parseAnnouncements` on a cons cell. -/
theorem parseAnnouncements_cons (row : FeedRow) (rest : List FeedRow) :
    parseAnnouncements (row :: rest) =
      match hrefCapture (row.title.getD []) with
      | none => parseAnnouncements rest
      | some u =>
          { date := row.published_date.getD [],
            title := (anchorTextCapture (row.title.getD [])).getD [],
            url := u } :: parseAnnouncements rest := by
  cases h : hrefCapture (row.title.getD []) with
  | none => simp only [parseAnnouncements, List.filterMap_cons, h]
  | some u => simp only [parseAnnouncements, List.filterMap_cons, h]

/-- C10: `fetch_fund_announcements` keeps exactly the feed rows whose title
HTML yields an `href` capture, in response order, with the anchor-text title
defaulting to the empty string; a row with no `href` is silently omitted from
the result. -/
theorem C10_rows_without_href_omitted (rows : List FeedRow) :
    parseAnnouncements rows =
      (rows.filter fun r => (hrefCapture (r.title.getD [])).isSome).map
        (fun r => { date := r.published_date.getD [],
                    title := (anchorTextCapture (r.title.getD [])).getD [],
                    url := (hrefCapture (r.title.getD [])).getD [] })
    ∧ ∀ pre post r, hrefCapture (r.title.getD []) = none →
        parseAnnouncements (pre ++ r :: post) =
          parseAnnouncements pre ++ parseAnnouncements post := by
  constructor
  · induction rows with
    | nil => rfl
    | cons row rest ih =>
        rw [parseAnnouncements_cons, List.filter_cons]
        cases h : hrefCapture (row.title.getD []) with
        | none => simp [h, ih]
        | some u => simp [h, ih]
  · intro pre post r h
    show List.filterMap _ (pre ++ r :: post) = _
    rw [List.filterMap_append]
    show parseAnnouncements pre ++ parseAnnouncements (r :: post) = _
    rw [parseAnnouncements_cons, h]

/-- Witness for C10: a middle row with no link disappears from the output,
the outer rows are unaffected. -/
theorem C10_witness :
    parseAnnouncements [sampleFeedRow,
        { published_date := some ("2025-01-02".data), title := some ("no link".data) },
        sampleFeedRow] =
      parseAnnouncements [sampleFeedRow] ++ parseAnnouncements [sampleFeedRow] :=
  (C10_rows_without_href_omitted []).2 [sampleFeedRow] [sampleFeedRow]
    { published_date := some ("2025-01-02".data), title := some ("no link".data) } rfl

/- ### C2: per-fund isolation in the two loops -/

/-- The step-2 loop distributes over list append. -/
theorem mainStep2_append (fetchAnns : FundRec → Except PyErr (List Announcement))
    (xs ys : List FundRec) :
    mainStep2 fetchAnns (xs ++ ys) =
      ((mainStep2 fetchAnns xs).1 ++ (mainStep2 fetchAnns ys).1,
       (mainStep2 fetchAnns xs).2 ++ (mainStep2 fetchAnns ys).2) := by
  induction xs with
  | nil => simp [mainStep2]
  | cons f rest ih => simp [mainStep2, ih]

/-- The step-3 loop distributes over list append, threading the store. -/
theorem mainStep3_append (net : ImgNet) (fs : FS) (xs ys : List NavImage) :
    mainStep3 net fs (xs ++ ys) =
      ((mainStep3 net (mainStep3 net fs xs).1 ys).1,
       (mainStep3 net fs xs).2.1 ++ (mainStep3 net (mainStep3 net fs xs).1 ys).2.1,
       (mainStep3 net fs xs).2.2 ++ (mainStep3 net (mainStep3 net fs xs).1 ys).2.2) := by
  induction xs generalizing fs with
  | nil => simp [mainStep3]
  | cons item rest ih => simp [mainStep3, ih]

/-- C2: in both per-fund loops of `main`, an error raised while processing
one fund is caught at that fund's boundary and logged with the fund's
symbol; every other fund in the list is processed and recorded exactly as it
would be with the failing fund's body skipped (the failing fund contributes
no record and leaves the artifact store untouched). -/
theorem C2_per_fund_isolation
    (fetchAnns : FundRec → Except PyErr (List Announcement)) (net : ImgNet) (fs : FS)
    (pre post : List FundRec) (n : FundRec) (e : PyErr)
    (ipre ipost : List NavImage) (it : NavImage) (e2 : PyErr)
    (hn : fetchAnns n = .error e)
    (hit : net.page it.announcement.url = .error e2) :
    (mainStep2 fetchAnns (pre ++ n :: post)).1 =
        (mainStep2 fetchAnns pre).1 ++ (mainStep2 fetchAnns post).1
    ∧ (mainStep2 fetchAnns (pre ++ n :: post)).2 =
        (mainStep2 fetchAnns pre).2 ++
          LogLine.fundError n.symbol e :: (mainStep2 fetchAnns post).2
    ∧ (mainStep3 net fs (ipre ++ it :: ipost)).2.1 =
        (mainStep3 net fs ipre).2.1 ++
          (mainStep3 net (mainStep3 net fs ipre).1 ipost).2.1
    ∧ (mainStep3 net fs (ipre ++ it :: ipost)).2.2 =
        (mainStep3 net fs ipre).2.2 ++ LogLine.fundError it.symbol e2 ::
          (mainStep3 net (mainStep3 net fs ipre).1 ipost).2.2 := by
  have h2 : mainStep2 fetchAnns (n :: post) =
      ((mainStep2 fetchAnns post).1,
       LogLine.fundError n.symbol e :: (mainStep2 fetchAnns post).2) := by
    simp [mainStep2, processFund, hn]
  have h3 : mainStep3 net (mainStep3 net fs ipre).1 (it :: ipost) =
      ((mainStep3 net (mainStep3 net fs ipre).1 ipost).1,
       (mainStep3 net (mainStep3 net fs ipre).1 ipost).2.1,
       LogLine.fundError it.symbol e2 ::
         (mainStep3 net (mainStep3 net fs ipre).1 ipost).2.2) := by
    simp [mainStep3, processItem, hit]
  refine ⟨?_, ?_, ?_, ?_⟩
  · rw [mainStep2_append, h2]
  · rw [mainStep2_append, h2]
  · rw [mainStep3_append, h3]
  · rw [mainStep3_append, h3]

/-- Concrete failing network and funds for C2's witness. -/
def failNet : ImgNet :=
  { page := fun _ => .error (.transport 404), http := fun _ => .error (.transport 404) }

/-- A minimal fund record with the given symbol. -/
def mkFund (s : List Char) : FundRec :=
  { symbol := s, name := s, fund_size := [], daily_nav := [], daily_date := [],
    weekly_nav := [], weekly_date := [], monthly_nav := [], monthly_date := [] }

/-- Witness for C2 at one failing fund between two others, under a fetch that
raises a transport error for every fund. -/
theorem C2_witness :
    (mainStep2 (fun _ => .error (.transport 500)) [mkFund ("A".data), mkFund ("B".data),
        mkFund ("C".data)]).1 =
      (mainStep2 (fun _ => .error (.transport 500)) [mkFund ("A".data)]).1 ++
        (mainStep2 (fun _ => .error (.transport 500)) [mkFund ("C".data)]).1 :=
  (C2_per_fund_isolation (fun _ => .error (.transport 500)) failNet (fun _ => none)
    [mkFund ("A".data)] [mkFund ("C".data)] (mkFund ("B".data)) (.transport 500)
    [] [] { symbol := "B".data, name := "B".data,
            announcement := { date := [], title := [], url := [] } }
    (.transport 404) rfl rfl).1

/- ### C7: download path determinism and idempotence -/

/-- C7: `download_image` persists the fetched bytes at the path derived
deterministically from the symbol and the URL's extension, overwriting
whatever was there; repeating the call on the resulting store rewrites the
same bytes at the same path and leaves the store unchanged (idempotence). -/
theorem C7_download_idempotent (net : ImgNet) (url symbol : List Char)
    (fs fs1 : FS) (p : List Char)
    (h : download_image net url symbol fs = .ok (fs1, p)) :
    download_image net url symbol fs1 = .ok (fs1, p)
    ∧ p = imagePath url symbol
    ∧ ∃ bytes, net.http url = .ok bytes ∧ fs1 p = some bytes := by
  unfold download_image at h ⊢
  cases hh : net.http url with
  | error e => rw [hh] at h; cases h
  | ok bytes =>
      rw [hh] at h
      injection h with h
      have h1 : fsWrite fs (imagePath url symbol) bytes = fs1 := congrArg Prod.fst h
      have h2 : imagePath url symbol = p := congrArg Prod.snd h
      have hwrite : fs1 p = some bytes := by
        rw [← h1, ← h2, fsWrite, if_pos rfl]
      refine ⟨?_, h2.symm, bytes, rfl, hwrite⟩
      have hfs : fsWrite fs1 (imagePath url symbol) bytes = fs1 := by
        funext q
        rw [fsWrite]
        by_cases hq : q = imagePath url symbol
        · rw [if_pos hq, hq, h2, hwrite]
        · rw [if_neg hq]
      show Except.ok (fsWrite fs1 (imagePath url symbol) bytes, imagePath url symbol) =
        Except.ok (fs1, p)
      rw [hfs, h2]

/-- Witness for C7: downloading again over the store produced by a first
download reproduces the same store and path. -/
theorem C7_witness :
    download_image
      { page := fun _ => .ok [], http := fun _ => .ok [1, 2, 3] }
      ("http://x/a.jpg".data) ("NIBLF".data)
      (fsWrite (fun _ => none) (imagePath ("http://x/a.jpg".data) ("NIBLF".data)) [1, 2, 3]) =
    .ok (fsWrite (fun _ => none) (imagePath ("http://x/a.jpg".data) ("NIBLF".data)) [1, 2, 3],
         imagePath ("http://x/a.jpg".data) ("NIBLF".data)) :=
  (C7_download_idempotent
    { page := fun _ => .ok [], http := fun _ => .ok [1, 2, 3] }
    ("http://x/a.jpg".data) ("NIBLF".data) (fun _ => none)
    (fsWrite (fun _ => none) (imagePath ("http://x/a.jpg".data) ("NIBLF".data)) [1, 2, 3])
    (imagePath ("http://x/a.jpg".data) ("NIBLF".data)) rfl).1

/- ### Image preprocessing (`extract_nav.py`) -/

/-- A BGR pixel with 8-bit channels. -/
structure Pix where
  b : Nat
  g : Nat
  r : Nat
deriving DecidableEq

/-- A colour image as rows of pixels. -/
abbrev ColorImg := List (List Pix)

/-- A single-channel image. -/
abbrev GrayImg := List (List Nat)

/-- Pixel access with a black default outside the stored grid. -/
def atColor (img : ColorImg) (r c : Nat) : Pix :=
  (img.getD r []).getD c { b := 0, g := 0, r := 0 }

/-- Replicate-border clamping of a possibly out-of-range index (the border
mode of OpenCV's resize). -/
def clampIdx (n : Nat) (i : Int) : Nat :=
  if i < 0 then 0 else if (n : Int) ≤ i then n - 1 else i.toNat

/-- OpenCV BORDER_REFLECT_101 for the blur kernel's two-pixel radius. -/
def reflect101 (n : Nat) (i : Int) : Nat :=
  if n ≤ 1 then 0
  else if i < 0 then clampIdx n (-i)
  else if (n : Int) ≤ i then clampIdx n (2 * ((n : Int) - 1) - i)
  else i.toNat

/-- Fixed-point bicubic taps (weights scaled by 2048 = 2^11) for the 2x
upscale: output index `2k` samples source positions `k-2..k+1` at phase 3/4,
output index `2k+1` samples `k-1..k+2` at phase 1/4, with OpenCV's
INTER_CUBIC kernel (A = -3/4); at these phases the weights are exact
integers. -/
def cubicTaps (o : Nat) : List (Int × Int) :=
  let k : Int := (o : Int) / 2
  if o % 2 = 0 then [(k - 2, -72), (k - 1, 536), (k, 1800), (k + 1, -216)]
  else [(k - 1, -216), (k, 1800), (k + 1, 536), (k + 2, -72)]

/-- Rounded fixed-point downscale by 2^22 with saturation to `0..255`. -/
def fix22Round (x : Int) : Nat :=
  let y := (x + 2097152).fdiv 4194304
  if y < 0 then 0 else if 255 < y then 255 else y.toNat

/-- One output pixel of the 2x bicubic resize: the 4x4 separable
accumulation followed by one rounding. -/
def resizePixel (img : ColorImg) (rows cols orow ocol : Nat) : Pix :=
  let acc := (cubicTaps orow).foldl (fun a rw =>
    (cubicTaps ocol).foldl (fun a2 cw =>
      let px := atColor img (clampIdx rows rw.1) (clampIdx cols cw.1)
      (a2.1 + rw.2 * cw.2 * (px.b : Int),
       a2.2.1 + rw.2 * cw.2 * (px.g : Int),
       a2.2.2 + rw.2 * cw.2 * (px.r : Int))) a)
    ((0 : Int), (0 : Int), (0 : Int))
  { b := fix22Round acc.1, g := fix22Round acc.2.1, r := fix22Round acc.2.2 }

/-- `cv2.resize(image, None, fx=2, fy=2, interpolation=cv2.INTER_CUBIC)`. -/
def resize2xCubic (img : ColorImg) : ColorImg :=
  (List.range (2 * img.length)).map fun orow =>
    (List.range (2 * (img.headD []).length)).map fun ocol =>
      resizePixel img img.length (img.headD []).length orow ocol

/-- `cv2.cvtColor(image, cv2.COLOR_BGR2GRAY)`: OpenCV's fixed-point BT.601
luma `(B*1868 + G*9617 + R*4899 + 2^13) >> 14`. -/
def cvtColorBGR2GRAY (img : ColorImg) : GrayImg :=
  img.map fun row => row.map fun p =>
    (p.b * 1868 + p.g * 9617 + p.r * 4899 + 8192) / 16384

/-- `cv2.GaussianBlur(gray, (5, 5), 0)`: at sigma 0 and kernel size 5 OpenCV
uses the fixed binomial kernel `[1 4 6 4 1]/16` in both directions, with
reflect-101 borders; one rounded division after the integer accumulation. -/
def gaussianBlur5 (img : GrayImg) : GrayImg :=
  (List.range img.length).map fun r =>
    (List.range (img.headD []).length).map fun c =>
      (([((-2 : Int), (1 : Nat)), (-1, 4), (0, 6), (1, 4), (2, 1)].foldl (fun acc kr =>
        [((-2 : Int), (1 : Nat)), (-1, 4), (0, 6), (1, 4), (2, 1)].foldl (fun acc2 kc =>
          acc2 + kr.2 * kc.2 *
            ((img.getD (reflect101 img.length ((r : Int) + kr.1)) []).getD
              (reflect101 (img.headD []).length ((c : Int) + kc.1)) 0)) acc) 0) + 128) / 256

/-- Number of pixels holding the given grey value. -/
def histCount (img : GrayImg) (v : Nat) : Nat :=
  (img.map fun row => (row.filter fun x => x = v).length).sum

/-- The Otsu threshold scan of `cv2.threshold(..., THRESH_BINARY +
THRESH_OTSU)`: scan candidates 0..255, keep the first maximiser of the
between-class variance `q1*q2*(mu1-mu2)^2`, tracked as the exact rational
`(s1*q2 - s2*q1)^2 / (q1*q2)` and compared by cross-multiplication;
candidates with an empty class are skipped.  OpenCV evaluates the same
quantity in double precision. -/
def otsuThreshold (img : GrayImg) : Nat :=
  let total := (img.map List.length).sum
  let stotal := (List.range 256).foldl (fun a v => a + v * histCount img v) 0
  ((List.range 256).foldl (fun best t =>
    let q1 := (List.range (t + 1)).foldl (fun a v => a + histCount img v) 0
    let q2 := total - q1
    if q1 = 0 ∨ q2 = 0 then best
    else
      let s1 := (List.range (t + 1)).foldl (fun a v => a + v * histCount img v) 0
      let s2 := stotal - s1
      let num := ((s1 : Int) * q2 - (s2 : Int) * q1).natAbs ^ 2
      let den := q1 * q2
      if num * best.2.2 > best.2.1 * den then (t, num, den) else best)
    ((0 : Nat), (0 : Nat), (1 : Nat))).1

/-- The `THRESH_BINARY` pass of `cv2.threshold` with `maxval = 255`. -/
def threshBinary (thr : Nat) (img : GrayImg) : GrayImg :=
  img.map fun row => row.map fun v => if thr < v then 255 else 0

/-- The external state visible to `extract_nav.py`: filesystem, network, and
the OCR runtime's availability and behaviour. -/
structure World where
  fileExists : List Char → Bool
  readImage : List Char → ColorImg
  fetchImage : List Char → Except PyErr ColorImg
  tesseractOK : Bool
  tesseractText : GrayImg → List Char

/-- The shape diagnostic `preprocess_image` prints to stderr. -/
def shapeLine (image : ColorImg) : List Char :=
  ("Original Image Shape: (" ++ toString image.length ++ ", " ++
    toString (image.headD []).length ++ ", 3)").data

/-- `preprocess_image` (`extract_nav.py` lines 28-40): upscale 2x with cubic
interpolation, convert to grayscale, Gaussian-blur, then Otsu binarisation.
It receives the ambient `World` — as any function of the script could — but
consults nothing in it; its only side effect is the shape line printed to
stderr, returned alongside the image. -/
def preprocess_image (w : World) (image : ColorImg) : GrayImg × List (List Char) :=
  let up := resize2xCubic image
  let gray := cvtColorBGR2GRAY up
  let blur := gaussianBlur5 gray
  (threshBinary (otsuThreshold blur) blur, [shapeLine image])

/-- C6: `normalize` (`preprocess_image`) is a pure, deterministic function:
runs under any two external states on identical input images yield identical
output images (and identical diagnostics) — the output depends on no external
state. -/
theorem C6_normalize_deterministic (w1 w2 : World) (img1 img2 : ColorImg)
    (h : img1 = img2) :
    preprocess_image w1 img1 = preprocess_image w2 img2 := by
  rw [h]
  rfl

/-- Worlds with maximally different external state for the C6 witness. -/
def trivialWorld : World :=
  { fileExists := fun _ => false, readImage := fun _ => [],
    fetchImage := fun _ => .error (.transport 404), tesseractOK := false,
    tesseractText := fun _ => [] }

/-- A second, different world for the C6 witness. -/
def busyWorld : World :=
  { fileExists := fun _ => true, readImage := fun _ => [[{ b := 9, g := 9, r := 9 }]],
    fetchImage := fun _ => .ok [], tesseractOK := true,
    tesseractText := fun _ => "text".data }

/-- Witness for C6: the two worlds produce the same normalised image for the
same concrete input. -/
theorem C6_witness :
    preprocess_image trivialWorld [[{ b := 10, g := 20, r := 30 }]] =
      preprocess_image busyWorld [[{ b := 10, g := 20, r := 30 }]] :=
  C6_normalize_deterministic trivialWorld busyWorld _ _ rfl

/- ### C8: missing OCR runtime -/

/-- `get_image` (`extract_nav.py` lines 15-26): URL sources are fetched over
the network, local paths are read when they exist, anything else raises
`FileNotFoundError`. -/
def get_image (w : World) (source : List Char) : Except PyErr ColorImg :=
  if leadsWith ("http".data) source then w.fetchImage source
  else if w.fileExists source then .ok (w.readImage source)
  else .error (.fileNotFound source)

/-- `extract_text` (`extract_nav.py` lines 42-50): run Tesseract
(`--oem 3 --psm 11 -l nep`); a missing Tesseract runtime raises
`TesseractNotFoundError`, modelled as `engineUnavailable`. -/
def extract_text (w : World) (image : GrayImg) : Except PyErr (List Char) :=
  if w.tesseractOK then .ok (w.tesseractText image) else .error .engineUnavailable

/-- Which `except` branch of `extract_nav.py`'s `main` produced the stderr
document: the Tesseract-specific install-hint handler is distinct from the
generic data-error handler. -/
inductive CliErrOut where
  | ok
  | engineMissing
  | generic (e : PyErr)
deriving DecidableEq

/-- Observable outcome of one `extract_nav.py` invocation. -/
structure CliResult where
  exitCode : Nat
  stdout : List ParsedData
  errOut : CliErrOut
deriving DecidableEq

/-- `main` of `extract_nav.py` (lines 68-97) for one `--image` argument:
load, preprocess, recognise, parse, print the result document;
`TesseractNotFoundError` has its own handler printing the install hint and
exiting 1; every other exception hits the generic handler, also exiting 1.
The optional `--debug` image dump is not modelled. -/
def extractNavMain (w : World) (imageArg : List Char) : CliResult :=
  match get_image w imageArg with
  | .error e => { exitCode := 1, stdout := [], errOut := .generic e }
  | .ok img =>
      match extract_text w (preprocess_image w img).1 with
      | .error PyErr.engineUnavailable =>
          { exitCode := 1, stdout := [], errOut := .engineMissing }
      | .error e => { exitCode := 1, stdout := [], errOut := .generic e }
      | .ok text => { exitCode := 0, stdout := [parse_data text], errOut := .ok }

/-- The OCR runtime used by `main.py`'s `run_easyocr` (lines 181-187): the
`import easyocr` inside the function raises when the package is missing. -/
structure OcrRuntime where
  easyocrOK : Bool
  readtext : List Char → List (List Char × Nat)

/-- `run_easyocr` (`main.py` lines 181-187): reading text requires the
EasyOCR package; importing it without the package installed raises, surfaced
here as `engineUnavailable`. -/
def run_easyocr (rt : OcrRuntime) (image_path : List Char) :
    Except PyErr (List (List Char × Nat)) :=
  if rt.easyocrOK then .ok (rt.readtext image_path) else .error .engineUnavailable

/-- C8: with the OCR runtime missing, recognition fails with the distinct
`engineUnavailable` error — handled by its own handler, never the generic
data-error one — and the single-image CLI exits non-zero with no result
document printed; `run_easyocr` likewise surfaces `engineUnavailable` when
EasyOCR is missing. -/
theorem C8_engine_unavailable (w : World) (imageArg : List Char) (img : ColorImg)
    (rt : OcrRuntime)
    (hload : get_image w imageArg = .ok img)
    (hmiss : w.tesseractOK = false)
    (hrt : rt.easyocrOK = false) :
    extractNavMain w imageArg = { exitCode := 1, stdout := [], errOut := .engineMissing }
    ∧ extract_text w (preprocess_image w img).1 = .error .engineUnavailable
    ∧ (∀ e, CliErrOut.engineMissing ≠ CliErrOut.generic e)
    ∧ ∀ p, run_easyocr rt p = .error .engineUnavailable := by
  have htext : ∀ im, extract_text w im = .error .engineUnavailable := by
    intro im
    unfold extract_text
    rw [hmiss]
    rfl
  refine ⟨?_, htext _, ?_, ?_⟩
  · unfold extractNavMain
    rw [hload]
    show (match extract_text w (preprocess_image w img).1 with
          | .error PyErr.engineUnavailable =>
              ({ exitCode := 1, stdout := [], errOut := .engineMissing } : CliResult)
          | .error e => { exitCode := 1, stdout := [], errOut := .generic e }
          | .ok text => { exitCode := 0, stdout := [parse_data text], errOut := .ok }) = _
    rw [htext]
  · intro e hcontra
    cases hcontra
  · intro p
    unfold run_easyocr
    rw [hrt]
    rfl

/-- World with a readable local image but no Tesseract, for the C8
witness. -/
def noTessWorld : World :=
  { fileExists := fun _ => true, readImage := fun _ => [[{ b := 1, g := 2, r := 3 }]],
    fetchImage := fun _ => .error (.transport 404), tesseractOK := false,
    tesseractText := fun _ => [] }

/-- Witness for C8 on the concrete Tesseract-less world. -/
theorem C8_witness :
    extractNavMain noTessWorld ("nav.jpg".data) =
      { exitCode := 1, stdout := [], errOut := .engineMissing } :=
  (C8_engine_unavailable noTessWorld ("nav.jpg".data) [[{ b := 1, g := 2, r := 3 }]]
    { easyocrOK := false, readtext := fun _ => [] } rfl rfl rfl).1

end NTX
